import Mathlib

/-!
# Verification of the tremor-runtime HTTP client connector

Shallow embedding of the bounded-concurrency HTTP client connector
(`src/connectors/impls/http/client.rs` and
`src/connectors/impls/http/auth.rs`) together with proofs of the spec
claims about it.

Modelling conventions:
* Rust `String`s and byte buffers are modelled as `List Nat` (their byte
  sequences); ASCII characters appear as their byte values (e.g. `58`
  is the colon).
* `base64::encode` / `base64::encode_config_buf` with the `STANDARD`
  config are modelled by `base64Encode`, a direct implementation of
  padded standard base64 (RFC 4648) over byte lists.
* Fallible Rust functions returning `Result` become `Except`.
* The asynchronous sink is modelled by explicit state passing: the
  bounded channels become lists (`clients_rx` holds the pending pool
  replacements, `sent` the replies delivered into the response
  channel), and a spawned detached task becomes a record of the data
  the source hands to it, executed later by `run_task`.
-/

namespace Tremor

/-- Byte value of the base64 padding character. -/
def padByte : Nat := 61

/-- The standard base64 alphabet: sextet value to byte value
(`A`-`Z`, `a`-`z`, `0`-`9`, `+`, `/`). -/
def b64Byte (n : Nat) : Nat :=
  if n < 26 then 65 + n
  else if n < 52 then 97 + (n - 26)
  else if n < 62 then 48 + (n - 52)
  else if n = 62 then 43
  else 47

/-- Standard padded base64 over a byte list, as performed by
`base64::encode`/`base64::encode_config_buf` with `base64::STANDARD`:
each 3-byte group becomes 4 alphabet bytes, a trailing 1- or 2-byte
group is padded with `=` (byte 61). -/
def base64Encode : List Nat → List Nat
  | [] => []
  | [a] => [b64Byte (a / 4), b64Byte (a % 4 * 16), padByte, padByte]
  | [a, b] => [b64Byte (a / 4), b64Byte (a % 4 * 16 + b / 16), b64Byte (b % 16 * 4), padByte]
  | a :: b :: c :: rest =>
      b64Byte (a / 4) :: b64Byte (a % 4 * 16 + b / 16) ::
      b64Byte (b % 16 * 4 + c / 64) :: b64Byte (c % 64) :: base64Encode rest

/-- Byte sequence of an ASCII string literal. -/
def strBytes (s : String) : List Nat := s.toList.map Char.toNat

/-- Authorization methods (`Auth` in `src/connectors/impls/http/auth.rs`).
Field strings are byte lists. `Auth.Gcp` is the externally-issued-token
variant. -/
inductive Auth where
  | Basic (username : List Nat) (password : List Nat)
  | Bearer (token : List Nat)
  | ElasticsearchApiKey (id : List Nat) (api_key : List Nat)
  | Gcp
  | None
deriving DecidableEq

/-- `Auth::as_header_value`. The external GCP token provider
(`gouth::Token::new()` followed by `header_value()`) is a collaborator
outside this module; it is passed in as `gcpToken`, with `Option.none`
standing for an unavailable provider (the only failure source).
All other arms are direct translations:
* `Basic` encodes `format!("{}:{}", username, password)` in one base64
  pass and prepends `"Basic "`;
* `Bearer` prepends `"Bearer "` to the token verbatim;
* `ElasticsearchApiKey` starts from `"ApiKey "` and appends three
  separate base64 encodings (of `id`, of `":"`, of `api_key`) to the
  same buffer, as the three `encode_config_buf` calls do;
* `None` yields no header. -/
def Auth.as_header_value (gcpToken : Option (List Nat)) : Auth → Except Unit (Option (List Nat))
  | .Gcp =>
      match gcpToken with
      | some t => .ok (some t)
      | none => .error ()
  | .Basic username password =>
      let encoded := base64Encode (username ++ strBytes ":" ++ password)
      .ok (some (strBytes "Basic " ++ encoded))
  | .Bearer token => .ok (some (strBytes "Bearer " ++ token))
  | .ElasticsearchApiKey id api_key =>
      let header_value := strBytes "ApiKey "
      let header_value := header_value ++ base64Encode id
      let header_value := header_value ++ base64Encode (strBytes ":")
      let header_value := header_value ++ base64Encode api_key
      .ok (some header_value)
  | .None => .ok none

/-- No base64 alphabet byte is the padding byte `=` (61). -/
theorem b64Byte_ne_pad (n : Nat) : b64Byte n ≠ padByte := by
  unfold b64Byte padByte
  split
  · omega
  · split
    · omega
    · split
      · omega
      · split <;> omega

/-- A nonempty input produces a nonempty base64 encoding. -/
theorem base64Encode_length_pos (l : List Nat) (h : l ≠ []) :
    0 < (base64Encode l).length := by
  match l with
  | [] => exact absurd rfl h
  | [a] => simp [base64Encode]
  | [a, b] => simp [base64Encode]
  | a :: b :: c :: rest => simp [base64Encode]

/-- In a base64 encoding the padding byte only occurs among the last
two bytes: any position at least 3 from the end is an alphabet byte. -/
theorem base64Encode_getElem?_ne_pad (l : List Nat) (p : Nat)
    (hp : p + 2 < (base64Encode l).length) :
    (base64Encode l)[p]? ≠ some padByte := by
  induction l using base64Encode.induct generalizing p with
  | case1 => simp [base64Encode] at hp
  | case2 a =>
    simp only [base64Encode, List.length_cons, List.length_nil] at hp
    have hp2 : p < 2 := by omega
    interval_cases p <;>
      simp [base64Encode, b64Byte_ne_pad]
  | case3 a b =>
    simp only [base64Encode, List.length_cons, List.length_nil] at hp
    have hp2 : p < 2 := by omega
    interval_cases p <;>
      simp [base64Encode, b64Byte_ne_pad]
  | case4 a b c rest ih =>
    match p with
    | 0 => simp [base64Encode, b64Byte_ne_pad]
    | 1 => simp [base64Encode, b64Byte_ne_pad]
    | 2 => simp [base64Encode, b64Byte_ne_pad]
    | 3 => simp [base64Encode, b64Byte_ne_pad]
    | q + 4 =>
      have hq : q + 2 < (base64Encode rest).length := by
        simp only [base64Encode, List.length_cons] at hp
        omega
      have := ih q hq
      simpa [base64Encode] using this

/-- Concatenating the three separate encodings of `id`, `":"` and `key`
never coincides with the single encoding of `id ++ ":" ++ key` (for
nonempty `id` and `key`): the former carries padding bytes from the
`":"` block strictly inside the string, which a single standard base64
encoding never does (only nonemptiness of `key` is needed). -/
theorem base64_three_ne_single (id key : List Nat) (hk : key ≠ []) :
    base64Encode id ++ base64Encode (strBytes ":") ++ base64Encode key
      ≠ base64Encode (id ++ strBytes ":" ++ key) := by
  intro h
  have hColon : base64Encode (strBytes ":") = [b64Byte 14, b64Byte 32, padByte, padByte] := rfl
  have hkpos : 0 < (base64Encode key).length := base64Encode_length_pos key hk
  -- the left-hand side has a padding byte two past the end of the `id` block
  have hgetL :
      (base64Encode id ++ base64Encode (strBytes ":") ++ base64Encode key)[
          (base64Encode id).length + 2]? = some padByte := by
    rw [List.getElem?_append_left (by simp [hColon]),
        List.getElem?_append_right (by omega)]
    simp [hColon]
  have hlen :
      (base64Encode (id ++ strBytes ":" ++ key)).length
        = (base64Encode id).length + 4 + (base64Encode key).length := by
    rw [← h]
    simp [hColon]
    omega
  rw [h] at hgetL
  exact base64Encode_getElem?_ne_pad _ _ (by omega) hgetL

/-- Claim C3: for the api-key variant with fields `id` and `key`, the
credential header is exactly `"ApiKey "` followed by `base64(id)`, then
`base64(":")`, then `base64(key)` — three separate base64 encodings
concatenated — and for non-empty `id` and `key` this differs from
`"ApiKey " ++ base64(id ++ ":" ++ key)`. -/
theorem claim_C3_apikey_three_encodings (id key : List Nat) (g : Option (List Nat))
    (_hi : id ≠ []) (hk : key ≠ []) :
    Auth.as_header_value g (Auth.ElasticsearchApiKey id key)
      = .ok (some (strBytes "ApiKey " ++ base64Encode id
          ++ base64Encode (strBytes ":") ++ base64Encode key))
    ∧ strBytes "ApiKey " ++ base64Encode id
          ++ base64Encode (strBytes ":") ++ base64Encode key
      ≠ strBytes "ApiKey " ++ base64Encode (id ++ strBytes ":" ++ key) := by
  refine ⟨rfl, fun h => ?_⟩
  have h2 : strBytes "ApiKey "
        ++ (base64Encode id ++ base64Encode (strBytes ":") ++ base64Encode key)
      = strBytes "ApiKey " ++ base64Encode (id ++ strBytes ":" ++ key) := by
    simpa [List.append_assoc] using h
  exact base64_three_ne_single id key hk (List.append_cancel_left h2)

/-- Witness for C3 at `id = "abc"`, `key = "xyz"` (the spec example). -/
theorem claim_C3_witness :
    Auth.as_header_value Option.none
        (Auth.ElasticsearchApiKey (strBytes "abc") (strBytes "xyz"))
      = .ok (some (strBytes "ApiKey " ++ base64Encode (strBytes "abc")
          ++ base64Encode (strBytes ":") ++ base64Encode (strBytes "xyz")))
    ∧ strBytes "ApiKey " ++ base64Encode (strBytes "abc")
          ++ base64Encode (strBytes ":") ++ base64Encode (strBytes "xyz")
      ≠ strBytes "ApiKey "
          ++ base64Encode (strBytes "abc" ++ strBytes ":" ++ strBytes "xyz") :=
  claim_C3_apikey_three_encodings (strBytes "abc") (strBytes "xyz") Option.none
    (by decide) (by decide)

/-- Claim C4: for the basic variant, the credential header is exactly
`"Basic "` followed by one base64 encoding of the single concatenated
string `username ++ ":" ++ password`; in particular
`username = "alice"`, `password = "secret"` yields
`"Basic YWxpY2U6c2VjcmV0"`. -/
theorem claim_C4_basic_single_encoding :
    (∀ (username password : List Nat) (g : Option (List Nat)),
      Auth.as_header_value g (Auth.Basic username password)
        = .ok (some (strBytes "Basic "
            ++ base64Encode (username ++ strBytes ":" ++ password))))
    ∧ Auth.as_header_value Option.none
          (Auth.Basic (strBytes "alice") (strBytes "secret"))
        = .ok (some (strBytes "Basic YWxpY2U6c2VjcmV0")) :=
  ⟨fun _ _ _ => rfl, rfl⟩

/-- Claim C5: header synthesis fails for no variant other than the
external-token (`Gcp`) one: for every other strategy it succeeds,
yielding no header exactly for the `None` variant. -/
theorem claim_C5_total_except_gcp (g : Option (List Nat)) (a : Auth)
    (h : a ≠ Auth.Gcp) :
    (Auth.as_header_value g a).isOk = true
    ∧ (Auth.as_header_value g a = .ok Option.none ↔ a = Auth.None) := by
  cases a with
  | Basic username password => exact ⟨rfl, by simp [Auth.as_header_value]⟩
  | Bearer token => exact ⟨rfl, by simp [Auth.as_header_value]⟩
  | ElasticsearchApiKey id api_key => exact ⟨rfl, by simp [Auth.as_header_value]⟩
  | Gcp => exact absurd rfl h
  | None => exact ⟨rfl, by simp [Auth.as_header_value]⟩

/-- Witness for C5 at the bearer variant. -/
theorem claim_C5_witness :
    (Auth.as_header_value Option.none (Auth.Bearer (strBytes "tok"))).isOk = true
    ∧ (Auth.as_header_value Option.none (Auth.Bearer (strBytes "tok"))
          = .ok Option.none
        ↔ Auth.Bearer (strBytes "tok") = Auth.None) :=
  claim_C5_total_except_gcp Option.none (Auth.Bearer (strBytes "tok")) (by decide)

/-- A pooled HTTP client handle (`SurfClient` in `client.rs`). The
wrapped `surf::Client` is modelled by its object identity (a number);
`Clone` on it yields the same identity. -/
structure SurfClient where
  client : Nat
deriving DecidableEq, Repr

/-- The transport pool (`SurfClients` in `client.rs`): a client list
plus a monotonically increasing rotation cursor. -/
structure SurfClients where
  clients : List SurfClient
  idx : Nat
deriving DecidableEq, Repr

/-- `SurfClients::new` — the cursor starts at 0. -/
def SurfClients.new (clients : List SurfClient) : SurfClients :=
  { clients := clients, idx := 0 }

/-- `SurfClients::next`: if the list is nonempty, read the entry at
`idx % len`, incrementing `idx` first (as `self.idx += 1` runs before
the guarded `get`), and return a clone of it; otherwise return nothing.
The state after the call is returned alongside the result. -/
def SurfClients.next (s : SurfClients) : Option SurfClient × SurfClients :=
  if 0 < s.clients.length then
    match s.clients[s.idx % s.clients.length]? with
    | some client => (some client, { s with idx := s.idx + 1 })
    | none => (none, { s with idx := s.idx + 1 })
  else
    (none, s)

/-- Results of `n` consecutive `next()` calls, in call order, together
with the final pool state. -/
def SurfClients.nextN (s : SurfClients) : Nat → List (Option SurfClient) × SurfClients
  | 0 => ([], s)
  | n + 1 =>
    let r := s.next
    let rs := r.2.nextN n
    (r.1 :: rs.1, rs.2)

/-- On a nonempty pool, `next` returns the entry at `idx % len` and
bumps the cursor. -/
theorem SurfClients.next_mk (l : List SurfClient) (j : Nat) (hl : l ≠ []) :
    (SurfClients.mk l j).next = (l[j % l.length]?, SurfClients.mk l (j + 1)) := by
  have hlen : 0 < l.length := List.length_pos.mpr hl
  have hidx : j % l.length < l.length := Nat.mod_lt _ hlen
  have hx : l[j % l.length]? = some (l[j % l.length]) :=
    List.getElem?_eq_getElem hidx
  simp [SurfClients.next, hlen, hx]

/-- On a nonempty pool the `i`-th of `n` consecutive `next()` calls
starting at cursor `j` returns the client at index `(j + i) % len`. -/
theorem SurfClients.nextN_mk (l : List SurfClient) (hl : l ≠ []) :
    ∀ (n j : Nat),
      (SurfClients.mk l j).nextN n
        = ((List.range n).map (fun i => l[(j + i) % l.length]?),
           SurfClients.mk l (j + n))
  | 0, j => by simp [SurfClients.nextN]
  | n + 1, j => by
    have hstep := SurfClients.next_mk l j hl
    have hrec := SurfClients.nextN_mk l hl n (j + 1)
    have hmap : (List.range (n + 1)).map (fun i => l[(j + i) % l.length]?)
        = l[j % l.length]?
            :: (List.range n).map (fun i => l[(j + 1 + i) % l.length]?) := by
      rw [List.range_succ_eq_map, List.map_cons, List.map_map]
      refine congrArg₂ _ (by rw [Nat.add_zero]) ?_
      apply List.map_congr_left
      intro i _
      simp only [Function.comp_apply, Nat.succ_eq_add_one]
      rw [show j + (i + 1) = j + 1 + i from by omega]
    simp only [SurfClients.nextN, hstep, hrec, hmap]
    rw [show j + 1 + n = j + (n + 1) from by omega]

/-- Indexing a list over its whole range recovers the list. -/
theorem range_map_getElem_opt (l : List SurfClient) :
    (List.range l.length).map (fun j => l[j]?) = l.map some := by
  apply List.ext_getElem?
  intro n
  rw [List.getElem?_map, List.getElem?_map]
  by_cases h : n < l.length
  · rw [List.getElem?_range h, List.getElem?_eq_getElem h]
    simp
  · rw [List.getElem?_eq_none (by simpa [List.length_range] using not_lt.mp h),
      List.getElem?_eq_none (not_lt.mp h)]
    simp

/-- Claim C2: starting from a fresh pool over a nonempty list `l`, the
`k`-th `next()` call (`k = j + 1`, zero-based `j`) returns the client
at index `j % l.length`; hence the first `l.length` calls return each
client exactly once in insertion order, and the following call repeats
the first client. -/
theorem claim_C2_round_robin (l : List SurfClient) (hl : l ≠ []) :
    (∀ n, ((SurfClients.new l).nextN n).1
        = (List.range n).map (fun j => l[j % l.length]?))
    ∧ ((SurfClients.new l).nextN l.length).1 = l.map some
    ∧ ((SurfClients.new l).nextN (l.length + 1)).1 = l.map some ++ [l[0]?] := by
  have hall : ∀ n, ((SurfClients.new l).nextN n).1
      = (List.range n).map (fun j => l[j % l.length]?) := by
    intro n
    have h := SurfClients.nextN_mk l hl n 0
    simp only [SurfClients.new] at h ⊢
    rw [h]
    simp
  have hfull : ((SurfClients.new l).nextN l.length).1 = l.map some := by
    rw [hall l.length]
    have : ∀ j ∈ List.range l.length, l[j % l.length]? = l[j]? := by
      intro j hj
      rw [Nat.mod_eq_of_lt (List.mem_range.mp hj)]
    rw [List.map_congr_left this, range_map_getElem_opt]
  refine ⟨hall, hfull, ?_⟩
  rw [hall (l.length + 1), List.range_succ, List.map_append, ← hall l.length,
    hfull]
  simp [Nat.mod_self]

/-- Witness for C2 on a three-client pool. -/
theorem claim_C2_witness :
    ((SurfClients.new [⟨1⟩, ⟨2⟩, ⟨3⟩]).nextN 3).1
        = [⟨1⟩, ⟨2⟩, ⟨3⟩].map some
    ∧ ((SurfClients.new [⟨1⟩, ⟨2⟩, ⟨3⟩]).nextN 4).1
        = [⟨1⟩, ⟨2⟩, ⟨3⟩].map some ++ [[(⟨1⟩ : SurfClient), ⟨2⟩, ⟨3⟩][0]?] := by
  have h := claim_C2_round_robin [⟨1⟩, ⟨2⟩, ⟨3⟩] (by decide)
  exact ⟨h.2.1, h.2.2⟩

/-- Claim C9: `next()` returns `none` exactly when the client list is
empty; on a nonempty list the guarded lookup at `idx % len` always
succeeds. -/
theorem claim_C9_next_none_iff_empty (s : SurfClients) :
    s.next.1 = Option.none ↔ s.clients = [] := by
  obtain ⟨l, j⟩ := s
  constructor
  · intro h
    by_contra hl
    rw [SurfClients.next_mk l j hl] at h
    have hlen : 0 < l.length := List.length_pos.mpr hl
    have hidx : j % l.length < l.length := Nat.mod_lt _ hlen
    rw [List.getElem?_eq_getElem hidx] at h
    simp at h
  · intro h
    subst h
    rfl

/-- A structured tremor value, covering what the `literal!` macros in
`client.rs` build (integers, strings, objects). -/
inductive Value where
  | int (n : Int)
  | str (s : String)
  | obj (fields : List (String × Value))

/-- `EventOriginUri` (from `tremor_pipeline`, re-exported by the
connector prelude): origin of a reply. -/
structure EventOriginUri where
  scheme : String
  host : String
  port : Option Nat
  path : List String

/-- `ValueAndMeta::from_parts(value, meta)` — the payload of a
structured reply. -/
structure ValueAndMeta where
  value : Value
  meta : Value

/-- The default stream id (`DEFAULT_STREAM_ID` from `tremor_pipeline`,
outside the provided sources; its concrete value is irrelevant to the
claims). -/
def DEFAULT_STREAM_ID : Nat := 0

/-- The one `SourceReply` variant the connector produces
(`SourceReply::Structured`). -/
inductive SourceReply where
  | Structured (origin_uri : EventOriginUri) (payload : ValueAndMeta)
      (stream : Nat) (port : Option String)

/-- `ResponseEventCont` from `super::meta` (the `meta.rs` module is not
among the provided sources; the two variants are reconstructed from
their use in `client.rs`): either the decoded replies of a completed
exchange, or the marker that the response body failed to decode. -/
inductive ResponseEventCont where
  | Valid (source_replies : List SourceReply)
  | CodecError

/-- The replies the spawned task body in `on_event` sends into the
delivery channel (`response_tx`), given the outcome of
`HttpResponseMeta::invoke` (the exchange-and-decode collaborator,
passed in as the argument):
* a valid decode forwards each decoded reply;
* a codec error sends exactly one synthesized `Structured` reply with
  payload value `{"status": 415}` and metadata
  `{"request": request_meta}`;
* any other error is only logged — nothing is sent. -/
def taskSends (origin_uri : EventOriginUri) (request_meta : Value) :
    Except Unit ResponseEventCont → List SourceReply
  | .ok (.Valid source_replies) => source_replies
  | .ok .CodecError =>
      [SourceReply.Structured origin_uri
        ⟨Value.obj [("status", Value.int 415)],
         Value.obj [("request", request_meta)]⟩
        DEFAULT_STREAM_ID Option.none]
  | .error _ => []

/-- Claim C8: a decode failure on a completed exchange produces exactly
one synthesized failure reply — never zero, never more than one —
carrying the fixed 415 status marker and the original request
metadata. -/
theorem claim_C8_codec_error_single_reply (origin_uri : EventOriginUri)
    (request_meta : Value) :
    taskSends origin_uri request_meta (.ok ResponseEventCont.CodecError)
      = [SourceReply.Structured origin_uri
          ⟨Value.obj [("status", Value.int 415)],
           Value.obj [("request", request_meta)]⟩
          DEFAULT_STREAM_ID Option.none]
    ∧ (taskSends origin_uri request_meta (.ok ResponseEventCont.CodecError)).length
        = 1 :=
  ⟨rfl, rfl⟩

/-- Errors surfaced by the modelled connector functions. -/
inductive TremorError where
  | timeoutError
  | recvError
deriving DecidableEq, Repr

/-- `SOURCE_RECV_TIMEOUT`: time in milliseconds to await an answer
before handing control back to the source manager. -/
def SOURCE_RECV_TIMEOUT_MS : Nat := 100

/-- `HttpRequestSource::pull_data`. The argument is the outcome of
`self.rx.recv().timeout(SOURCE_RECV_TIMEOUT).await`: the outer
`Except` layer is the timeout wrapper (`.error ()` when the timeout
elapsed before a message arrived), the inner layer the channel receive
(`.error ()` when the delivery channel is closed). The trailing `?`
converts an elapsed timeout into an early error return, and the
`Err(e) => Err(e.into())` arm converts a closed-channel receive error
into an error return. -/
def pull_data (recv_outcome : Except Unit (Except Unit SourceReply)) :
    Except TremorError SourceReply :=
  match recv_outcome with
  | .error _ => .error TremorError.timeoutError
  | .ok (.ok receiver) => .ok receiver
  | .ok (.error _) => .error TremorError.recvError

/-- Claim C7 counterexample: when the timeout elapses on an
empty-but-open channel, `pull_data` does not return without an error —
the `?` operator turns the elapsed timeout into an error return. -/
theorem claim_C7_counterexample :
    pull_data (.error ()) = .error TremorError.timeoutError
    ∧ (pull_data (.error ())).isOk = false :=
  ⟨rfl, rfl⟩

/-- Claim C7 (amended): `pull_data` returns successfully only when a
reply was received; an elapsed timeout is surfaced as an error (the
converted timeout error), and a closed delivery channel as a distinct
receive error. -/
theorem claim_C7_timeout_is_error :
    (∀ reply, pull_data (.ok (.ok reply)) = .ok reply)
    ∧ pull_data (.error ()) = .error TremorError.timeoutError
    ∧ pull_data (.ok (.error ())) = .error TremorError.recvError
    ∧ TremorError.timeoutError ≠ TremorError.recvError :=
  ⟨fun _ => rfl, rfl, rfl, by decide⟩

/-- One inbound unit of work. Its content is only ever inspected by the
request-building collaborator. -/
structure Event where
  data : Value

/-- The resolved outbound request (its content is never inspected by
the dispatcher after construction). -/
structure Request where
  body : List Nat

/-- The data `on_event` hands to the detached task it spawns: the
cloned transport client, the built request, the request metadata and
the (cloned) origin URI. The concurrency permit bounding the task is
treated by the separate admission-controller model. -/
structure SpawnedTask where
  client : SurfClient
  request : Request
  request_meta : Value
  origin_uri : EventOriginUri

/-- `SinkReply` as used by `on_event`: `NONE` for a dispatched event,
`FAIL` for an explicit dispatch failure. -/
inductive SinkReply where
  | NONE
  | FAIL
deriving DecidableEq, Repr

/-- The sink half of the connector (`HttpRequestSink`): the current
transport pool, the receiving end of the pool-refresh channel
(pending replacement lists, oldest first), and — standing for the
sending half of the delivery channel and the detached tasks — the
replies sent so far and the tasks spawned so far. -/
structure HttpRequestSink where
  clients : SurfClients
  clients_rx : List (List SurfClient)
  sent : List SourceReply
  spawned : List SpawnedTask
  origin_uri : EventOriginUri

/-- `HttpRequestSink::refresh_clients`: one non-blocking `try_recv` on
the pool-refresh channel; if a replacement list is waiting, the whole
pool is swapped for a fresh `SurfClients` over it. -/
def HttpRequestSink.refresh_clients (s : HttpRequestSink) : HttpRequestSink :=
  match s.clients_rx with
  | new_clients :: rest =>
      { s with clients := SurfClients.new new_clients, clients_rx := rest }
  | [] => s

/-- `HttpRequestSink::on_event`. The `process` parameter stands for
`self.http_meta.process(&event)` together with the codec and
pre/postprocessor lookups (collaborators outside the provided sources);
any failure of theirs aborts the dispatch with an error, as each `?`
does in the source. Control flow, in source order: refresh the pool,
(acquire the concurrency permit — modelled separately), take the next
client; with a client, build the request and spawn the detached task,
answering `NONE`; with no client, answer `FAIL` without spawning. -/
def HttpRequestSink.on_event
    (process : Event → Except Unit (Request × Value))
    (s : HttpRequestSink) (event : Event) :
    Except Unit (HttpRequestSink × SinkReply) :=
  let s := s.refresh_clients
  match s.clients.next with
  | (some client, clients) =>
      let s := { s with clients := clients }
      match process event with
      | .ok (request, request_meta) =>
          .ok ({ s with spawned := s.spawned
                  ++ [⟨client, request, request_meta, s.origin_uri⟩] },
               SinkReply.NONE)
      | .error e => .error e
  | (none, clients) => .ok ({ s with clients := clients }, SinkReply.FAIL)

/-- Executing one spawned task with the given exchange outcome delivers
its `taskSends` into the delivery channel. -/
def HttpRequestSink.run_task (s : HttpRequestSink) (t : SpawnedTask)
    (outcome : Except Unit ResponseEventCont) : HttpRequestSink :=
  { s with sent := s.sent ++ taskSends t.origin_uri t.request_meta outcome }

theorem refresh_clients_cons (s : HttpRequestSink) (a : List SurfClient)
    (rest : List (List SurfClient)) (h : s.clients_rx = a :: rest) :
    s.refresh_clients
      = { s with clients := SurfClients.new a, clients_rx := rest } := by
  simp [HttpRequestSink.refresh_clients, h]

theorem refresh_clients_nil (s : HttpRequestSink) (h : s.clients_rx = []) :
    s.refresh_clients = s := by
  simp [HttpRequestSink.refresh_clients, h]

theorem refresh_clients_spawned (s : HttpRequestSink) :
    s.refresh_clients.spawned = s.spawned := by
  rcases hrx : s.clients_rx with _ | ⟨a, rest⟩ <;>
    simp [HttpRequestSink.refresh_clients, hrx]

theorem refresh_clients_sent (s : HttpRequestSink) :
    s.refresh_clients.sent = s.sent := by
  rcases hrx : s.clients_rx with _ | ⟨a, rest⟩ <;>
    simp [HttpRequestSink.refresh_clients, hrx]

/-- Shared core of C6 and C10: whenever the pool is empty after the
refresh poll, `on_event` answers `FAIL` and changes nothing beyond the
refresh itself. -/
theorem on_event_of_refresh_empty
    (process : Event → Except Unit (Request × Value))
    (s : HttpRequestSink) (event : Event)
    (h : s.refresh_clients.clients.clients = []) :
    HttpRequestSink.on_event process s event
      = .ok (s.refresh_clients, SinkReply.FAIL) := by
  have hnext : s.refresh_clients.clients.next
      = (Option.none, s.refresh_clients.clients) := by
    simp [SurfClients.next, h]
  simp only [HttpRequestSink.on_event, hnext]

/-- Claim C6: a call to `on_event` whose pool is empty after the
non-blocking refresh poll returns the explicit `FAIL` reply, spawns no
task and sends nothing into the delivery channel. -/
theorem claim_C6_empty_pool_dispatch
    (process : Event → Except Unit (Request × Value))
    (s : HttpRequestSink) (event : Event)
    (h : s.refresh_clients.clients.clients = []) :
    HttpRequestSink.on_event process s event
      = .ok (s.refresh_clients, SinkReply.FAIL)
    ∧ s.refresh_clients.spawned = s.spawned
    ∧ s.refresh_clients.sent = s.sent :=
  ⟨on_event_of_refresh_empty process s event h,
   refresh_clients_spawned s, refresh_clients_sent s⟩

/-- A request-building collaborator that always fails, for concrete
witnesses. -/
def processFail : Event → Except Unit (Request × Value) :=
  fun _ => .error ()

/-- The sink's initial origin URI (`HttpRequestSink::new`). -/
def initial_origin_uri : EventOriginUri :=
  { scheme := "rest_client", host := "dummy", port := Option.none, path := [] }

/-- A fresh sink as built by `HttpRequestSink::new`: empty pool, and
nothing yet received, sent or spawned. -/
def initialSink : HttpRequestSink :=
  { clients := SurfClients.new [], clients_rx := [], sent := [],
    spawned := [], origin_uri := initial_origin_uri }

/-- Witness for C6: dispatching against the fresh, never-connected sink
fails explicitly. -/
theorem claim_C6_witness :
    HttpRequestSink.on_event processFail initialSink ⟨Value.int 0⟩
      = .ok (initialSink.refresh_clients, SinkReply.FAIL)
    ∧ initialSink.refresh_clients.spawned = initialSink.spawned
    ∧ initialSink.refresh_clients.sent = initialSink.sent :=
  claim_C6_empty_pool_dispatch processFail initialSink ⟨Value.int 0⟩ rfl

/-- `HttpClient::connect`: the replacement client list sent down
`clients_tx` on a successful connect. The Rust loop
`for _i in 1..self.max_concurrency` pushes one fresh `surf::client()`
per iteration; fresh handles are numbered by the loop counter. -/
def HttpClient.connect_clients (max_concurrency : Nat) : List SurfClient :=
  (List.range' 1 (max_concurrency - 1)).map (fun i => { client := i })

/-- Claim C10: a successful connect builds a replacement list of
exactly `N - 1` clients; for `N = 1` the replacement list is empty, so
after the sink swaps it in, this and every subsequent dispatch fails
with no client available. -/
theorem claim_C10_connect_builds_one_less (N : Nat) (_hN : 1 ≤ N)
    (process : Event → Except Unit (Request × Value))
    (s : HttpRequestSink) (event : Event)
    (h : s.clients_rx = [HttpClient.connect_clients 1]) :
    (HttpClient.connect_clients N).length = N - 1
    ∧ HttpClient.connect_clients 1 = []
    ∧ HttpRequestSink.on_event process s event
        = .ok (s.refresh_clients, SinkReply.FAIL)
    ∧ s.refresh_clients.clients.clients = []
    ∧ s.refresh_clients.clients_rx = []
    ∧ (∀ event2, HttpRequestSink.on_event process s.refresh_clients event2
        = .ok (s.refresh_clients, SinkReply.FAIL)) := by
  have hre : s.refresh_clients
      = { s with clients := SurfClients.new (HttpClient.connect_clients 1),
                 clients_rx := [] } :=
    refresh_clients_cons s (HttpClient.connect_clients 1) [] h
  have hempty : s.refresh_clients.clients.clients = [] := by rw [hre]; rfl
  have hrx : s.refresh_clients.clients_rx = [] := by rw [hre]
  refine ⟨?_, rfl, on_event_of_refresh_empty process s event hempty, hempty,
      hrx, ?_⟩
  · simp [HttpClient.connect_clients]
  · intro event2
    have hfix : s.refresh_clients.refresh_clients = s.refresh_clients :=
      refresh_clients_nil s.refresh_clients hrx
    have := on_event_of_refresh_empty process s.refresh_clients event2
      (by rw [hfix]; exact hempty)
    rwa [hfix] at this

/-- A sink whose pool-refresh channel holds the (empty) replacement
list a `max_concurrency = 1` connect produces. -/
def sinkWithEmptySwap : HttpRequestSink :=
  { initialSink with clients_rx := [HttpClient.connect_clients 1] }

/-- Witness for C10 at `N = 1`. -/
theorem claim_C10_witness :
    (HttpClient.connect_clients 1).length = 1 - 1
    ∧ HttpClient.connect_clients 1 = []
    ∧ HttpRequestSink.on_event processFail sinkWithEmptySwap ⟨Value.int 0⟩
        = .ok (sinkWithEmptySwap.refresh_clients, SinkReply.FAIL)
    ∧ sinkWithEmptySwap.refresh_clients.clients.clients = []
    ∧ sinkWithEmptySwap.refresh_clients.clients_rx = []
    ∧ HttpRequestSink.on_event processFail sinkWithEmptySwap.refresh_clients
          ⟨Value.int 1⟩
        = .ok (sinkWithEmptySwap.refresh_clients, SinkReply.FAIL) := by
  have h := claim_C10_connect_builds_one_less 1 (by decide) processFail
    sinkWithEmptySwap ⟨Value.int 0⟩ rfl
  exact ⟨h.1, h.2.1, h.2.2.1, h.2.2.2.1, h.2.2.2.2.1,
    h.2.2.2.2.2 ⟨Value.int 1⟩⟩

/-- Modelled from the spec: the state of the `ConcurrencyCap` admission
controller (`src/connectors/sink/concurrency_cap.rs` is not among the
provided sources). Spec §4.1: it "maintains a counter bounded by a
configured maximum (≥1)"; the state is the number of
acquired-but-not-yet-released permits. -/
structure CapState where
  live : Nat
deriving DecidableEq, Repr

/-- Modelled from the spec: the two transitions of the admission
controller. `inc_for` acquires a permit, enabled only below the
configured maximum ("if a slot is free, it is reserved immediately...
if the bound is already reached, the caller suspends" — so no acquire
transition exists at the bound); dropping a permit guard releases one
slot. -/
inductive CapStep (max_concurrency : Nat) : CapState → CapState → Prop
  | acquire (s : CapState) (h : s.live < max_concurrency) :
      CapStep max_concurrency s ⟨s.live + 1⟩
  | release (s : CapState) (h : 0 < s.live) :
      CapStep max_concurrency s ⟨s.live - 1⟩

/-- States reachable from the freshly-constructed controller (no live
permits) by any interleaving of acquires and releases — in particular
by any sequence of `on_event` calls and task completions. -/
def CapReachable (max_concurrency : Nat) (s : CapState) : Prop :=
  Relation.ReflTransGen (CapStep max_concurrency) ⟨0⟩ s

/-- Claim C1: with `max_concurrency = N` (`N ≥ 1`), no reachable state
of the admission controller has more than `N` live permits. -/
theorem claim_C1_permits_bounded (N : Nat) (s : CapState) (_hN : 1 ≤ N)
    (h : CapReachable N s) : s.live ≤ N := by
  induction h with
  | refl => exact Nat.zero_le N
  | tail hab hbc ih =>
    cases hbc with
    | acquire hb => exact hb
    | release hb => exact Nat.le_trans (Nat.sub_le _ _) ih

/-- Witness for C1: after one acquire under `max_concurrency = 2` the
live count stays within the bound. -/
theorem claim_C1_witness : (CapState.mk 1).live ≤ 2 :=
  claim_C1_permits_bounded 2 ⟨1⟩ (by decide)
    (Relation.ReflTransGen.single (CapStep.acquire ⟨0⟩ (by decide)))

end Tremor
